import Mathlib

/-!
Verification development for the TaxDeclaration rule engines
(tax_processor/rules_engine.py, entity_type_rules_engine.py,
transaction_scope_rules_engine.py, models.py).

The Python sources are shallowly embedded: Django model rows become Lean
structures, `Decimal` values become `ℚ` (Decimal arithmetic on finite
decimals is exact rational arithmetic), Python `None` becomes `Option`,
and the string-keyed branching of the condition evaluators becomes
if-chains over the same literals, in source order.
-/

attribute [local semireducible] Rat.mul Rat.add Rat.sub Rat.inv

/-- Whitespace predicate used by Python's str.strip / Decimal parsing. -/
def isSpaceChar (c : Char) : Bool :=
  c = ' ' || c = '\t' || c = '\n' || c = '\r' || c = '\x0b' || c = '\x0c'

/-- Model of Python str.strip(): drop whitespace from both ends. -/
def pyTrim (s : String) : String :=
  ⟨((s.data.dropWhile isSpaceChar).reverse.dropWhile isSpaceChar).reverse⟩

/-- Model of Python str.lower() (ASCII case folding). -/
def pyLower (s : String) : String := ⟨s.data.map Char.toLower⟩

/-- Model of Python str.upper() (ASCII case folding). -/
def pyUpper (s : String) : String := ⟨s.data.map Char.toUpper⟩

/-- Containment of one character list in another, as Python's `in`. -/
def containsSub (needle : List Char) : List Char → Bool
  | [] => needle.isEmpty
  | c :: rest => needle.isPrefixOf (c :: rest) || containsSub needle rest

/-- Model of Python `needle in hay` for strings. -/
def strContains (hay needle : String) : Bool := containsSub needle.data hay.data

/-- Model of Python str.split(','): split a character list at commas. -/
def splitCommaAux (cur : List Char) : List Char → List (List Char)
  | [] => [cur.reverse]
  | c :: rest =>
      if c = ',' then cur.reverse :: splitCommaAux [] rest
      else splitCommaAux (c :: cur) rest

/-- Model of Python str.split(',') for strings. -/
def splitComma (s : String) : List String :=
  (splitCommaAux [] s.data).map (fun l => ⟨l⟩)

/-- Numeric value of an ASCII digit, if the character is a digit. -/
def charDigit (c : Char) : Option ℕ :=
  if 48 ≤ c.toNat ∧ c.toNat ≤ 57 then some (c.toNat - 48) else none

/-- Value of a digit string, failing on any non-digit. -/
def digitsVal (cs : List Char) : Option ℕ :=
  cs.foldl
    (fun acc c =>
      match acc, charDigit c with
      | some n, some d => some (n * 10 + d)
      | _, _ => none)
    (some 0)

/-- Power of ten, used to scale fractional digit strings. -/
def pow10 : ℕ → ℕ
  | 0 => 1
  | n + 1 => 10 * pow10 n

/-- Parse an unsigned plain decimal literal (digits, optionally with one dot).
At least one digit must be present; a second dot or any other character
fails, matching `decimal.InvalidOperation`. -/
def parseUnsigned (cs : List Char) : Option ℚ :=
  let ip := cs.takeWhile (fun c => c ≠ '.')
  match cs.dropWhile (fun c => c ≠ '.') with
  | [] =>
      if ip.isEmpty then none else (digitsVal ip).map (fun n => mkRat n 1)
  | _ :: frac =>
      if frac.contains '.' then none
      else if ip.isEmpty && frac.isEmpty then none
      else
        match digitsVal ip, digitsVal frac with
        | some n, some m => some (mkRat (n * pow10 frac.length + m) (pow10 frac.length))
        | _, _ => none

/-- Model of Python `Decimal(str(value))` on plain decimal literals:
surrounding whitespace is tolerated, an optional sign precedes the digits,
anything else raises `InvalidOperation`, modelled as `none`.  (Exponent and
special forms such as `NaN` are not decision-relevant and not modelled.) -/
def parseDecimal (s : String) : Option ℚ :=
  match (pyTrim s).data with
  | '+' :: rest => parseUnsigned rest
  | '-' :: rest => (parseUnsigned rest).map (fun q => -q)
  | rest => parseUnsigned rest

/-- Decimal representation of an integer, as Python prints it. -/
def intRepr (i : ℤ) : String :=
  if i < 0 then "-" ++ Nat.repr i.natAbs else Nat.repr i.natAbs

/-- Two-digit decimal rendering of a number below 100. -/
def twoDigits (n : ℕ) : String :=
  if n < 10 then "0" ++ Nat.repr n else Nat.repr n

/-- Model of Python `str()` on the stored Decimal: transaction amounts are
`DecimalField(decimal_places=2)` values, so integral and two-decimal forms
cover every stored amount; other rationals cannot occur as stored Decimals
and get an arbitrary distinct rendering. -/
def decToString (q : ℚ) : String :=
  if q.den = 1 then intRepr q.num
  else
    let c := q * 100
    if c.den = 1 then
      (if q.num < 0 then "-" else "") ++
        Nat.repr (c.num.natAbs / 100) ++ "." ++ twoDigits (c.num.natAbs % 100)
    else intRepr q.num ++ "/" ++ Nat.repr q.den

/-- Dynamic values reachable from a transaction: strings or Decimals. -/
inductive Value where
  | str (s : String)
  | dec (q : ℚ)
deriving DecidableEq

/-- Model of Python `str()` applied to a resolved field value. -/
def valueToString : Value → String
  | .str s => s
  | .dec q => decToString q

/-- Immutable attributes of one `Transaction` row (models.py), together
with the statement/declaration links the engines traverse.  `declId`
models `statement.declaration_id`; `declFirstName`/`declLastName` model
the `statement__declaration__first_name` relationship walks, `none`
standing for a missing or null link. -/
structure Transaction where
  txId : ℕ
  declId : ℕ
  isExpense : Bool
  transactionDate : ℤ
  amount : ℚ
  currency : String
  description : String
  sender : String
  senderAccount : Option String
  declFirstName : Option String
  declLastName : Option String
deriving DecidableEq

/-- Model of `_get_dynamic_value` (rules_engine.py lines 41-57, duplicated
verbatim in both other engines): a getattr walk over the transaction,
following `__`-separated relationship chains, returning `None` for any
missing attribute or null link.  The walk is enumerated over the
attributes and relationship chains resolvable on the Django models; any
other name yields `none`. -/
def getDynamicValue (t : Transaction) (fieldName : String) : Option Value :=
  if fieldName = "description" then some (.str t.description)
  else if fieldName = "sender" then some (.str t.sender)
  else if fieldName = "amount" then some (.dec t.amount)
  else if fieldName = "currency" then some (.str t.currency)
  else if fieldName = "sender_account" then t.senderAccount.map .str
  else if fieldName = "statement__declaration__first_name" then t.declFirstName.map .str
  else if fieldName = "statement__declaration__last_name" then t.declLastName.map .str
  else none

/-- One atomic check `{field, type, value}` from a rule's condition JSON.
`none` models an absent key (Python dict .get returning None). -/
structure Condition where
  field : Option String
  type : Option String
  value : Option String
deriving DecidableEq

/-- Evaluation environment: `regexSearch pat s` models
`re.search(pat, s, re.IGNORECASE)`; `none` models an invalid pattern
(`re.error`), which the engines catch and treat as no-match. -/
structure Env where
  regexSearch : String → String → Option Bool

/-- Membership in the numeric operator list shared by all three engines. -/
def isNumericType (ctype : String) : Bool :=
  ctype = "GREATER_THAN" || ctype = "LESS_THAN" ||
  ctype = "GREATER_THAN_OR_EQUAL" || ctype = "LESS_THAN_OR_EQUAL" ||
  ctype = "RANGE_AMOUNT"

/-- Comma-separated keyword list: split, trim each token, drop empties
(models the list comprehension in the CONTAINS_KEYWORD branches). -/
def keywordList (s : String) : List String :=
  ((splitComma s).map pyTrim).filter (fun kw => kw ≠ "")

/-- Shared numeric comparison on an already-converted amount (the bodies of
the GREATER_THAN .. RANGE_AMOUNT branches, identical in all engines).
Parse failures and malformed ranges return false, matching the
`except (InvalidOperation, ValueError, TypeError)` handler. -/
def numericCompare (ctype value : String) (txAmount : ℚ) : Bool :=
  if ctype = "GREATER_THAN" then
    match parseDecimal value with
    | some n => decide (txAmount > n)
    | none => false
  else if ctype = "LESS_THAN" then
    match parseDecimal value with
    | some n => decide (txAmount < n)
    | none => false
  else if ctype = "GREATER_THAN_OR_EQUAL" then
    match parseDecimal value with
    | some n => decide (txAmount ≥ n)
    | none => false
  else if ctype = "LESS_THAN_OR_EQUAL" then
    match parseDecimal value with
    | some n => decide (txAmount ≤ n)
    | none => false
  else
    match (splitComma value).map pyTrim with
    | [minS, maxS] =>
        match parseDecimal minS, parseDecimal maxS with
        | some mn, some mx => decide (mn ≤ txAmount ∧ txAmount ≤ mx)
        | _, _ => false
    | _ => false

namespace RulesEngine

/-- Model of `RulesEngine._evaluate_condition` (rules_engine.py lines
61-134): the Category-domain condition evaluator.  Note it performs NO
currency conversion in the amount branches.  The blanket
`except Exception` makes the source total; the model is total by
construction.  `Decimal(str(tx.amount))` round-trips to the stored
Decimal, so the `.dec` branch uses the amount directly. -/
def evaluateCondition (env : Env) (t : Transaction) (c : Condition) : Bool :=
  match c.field, c.type, c.value with
  | some field, some ctype, some value =>
    if field = "" || ctype = "" then false
    else
      match getDynamicValue t field with
      | none => false
      | some fvRaw =>
        let strFieldValue := valueToString fvRaw
        if ctype = "CONTAINS_FIELD_VALUE" || ctype = "NOT_CONTAINS_FIELD_VALUE" ||
            ctype = "EQUALS_FIELD_VALUE" then
          match getDynamicValue t value with
          | none => false
          | some vRaw =>
            let strValueFromField := valueToString vRaw
            if ctype = "CONTAINS_FIELD_VALUE" then
              strContains (pyLower strFieldValue) (pyLower strValueFromField)
            else if ctype = "NOT_CONTAINS_FIELD_VALUE" then
              !(strContains (pyLower strFieldValue) (pyLower strValueFromField))
            else
              decide (pyLower (pyTrim strFieldValue) = pyLower (pyTrim strValueFromField))
        else
          let strValueLower := pyLower value
          if ctype = "CONTAINS_KEYWORD" then
            (keywordList strValueLower).any (fun kw => strContains (pyLower strFieldValue) kw)
          else if ctype = "DOES_NOT_CONTAIN_KEYWORD" then
            !((keywordList strValueLower).any (fun kw => strContains (pyLower strFieldValue) kw))
          else if ctype = "EQUALS" then
            decide (pyLower (pyTrim strFieldValue) = pyTrim strValueLower)
          else if ctype = "REGEX_MATCH" then
            (env.regexSearch value strFieldValue).getD false
          else if field = "amount" && isNumericType ctype then
            match fvRaw with
            | .dec txAmount => numericCompare ctype value txAmount
            | .str s =>
                match parseDecimal s with
                | some txAmount => numericCompare ctype value txAmount
                | none => false
          else if isNumericType ctype then
            false
          else
            false
  | _, _, _ => false

end RulesEngine

/-- One `ExchangeRate` row: rate in local currency (AMD) per one unit of
the foreign currency, dated. -/
structure ExchangeRateRec where
  date : ℤ
  currencyCode : String
  rate : ℚ
deriving DecidableEq

/-- Model of the per-run rate cache built in `run_analysis` of the
Entity-Type and Scope engines: every DB rate whose date is some analyzed
transaction's date AND whose currency is some analyzed transaction's
currency (non-AMD transactions only) is cached under
`(rate.date, rate.currency_code)`. -/
def buildCache (ratesDb : List ExchangeRateRec) (txs : List Transaction) :
    List ((ℤ × String) × ℚ) :=
  let nonAmd := txs.filter (fun t => t.currency ≠ "AMD")
  (ratesDb.filter (fun r =>
      nonAmd.any (fun t => t.transactionDate = r.date) &&
      nonAmd.any (fun t => t.currency = r.currencyCode))).map
    (fun r => ((r.date, r.currencyCode), r.rate))

/-- Dictionary lookup in the rate cache; on duplicate keys the last
binding wins, as in a Python dict comprehension. -/
def cacheLookup (cache : List ((ℤ × String) × ℚ)) (d : ℤ) (c : String) : Option ℚ :=
  ((cache.filter (fun p => p.1.1 = d ∧ p.1.2 = c)).getLast?).map (fun p => p.2)

/-- Fold selecting the record with the greatest date (first record wins a
tie), modelling `.order_by('-date').first()`. -/
def pickLatest (acc : Option ExchangeRateRec) :
    List ExchangeRateRec → Option ExchangeRateRec
  | [] => acc
  | r :: rs =>
      match acc with
      | none => pickLatest (some r) rs
      | some b => pickLatest (some (if b.date < r.date then r else b)) rs

/-- Model of the fallback DB query in `_evaluate_condition`:
`ExchangeRate.objects.filter(currency_code=c, date__lt=d).order_by('-date').first()`. -/
def latestRateBefore (ratesDb : List ExchangeRateRec) (c : String) (d : ℤ) : Option ℚ :=
  (pickLatest none (ratesDb.filter (fun r => r.currencyCode = c ∧ r.date < d))).map
    (fun r => r.rate)

/-- Rate resolution as performed inside `_evaluate_condition` of the
Entity-Type and Scope engines: the run-scoped cache is consulted first
(which may hold a SAME-DAY rate, pre-fetched by `run_analysis`), then the
DB is searched for the latest strictly-prior rate.  The source also
writes the fallback result back into the cache; re-reading it yields the
identical value, so the write-back is behaviourally inert and omitted. -/
def rateLookup (cache : List ((ℤ × String) × ℚ)) (ratesDb : List ExchangeRateRec)
    (d : ℤ) (c : String) : Option ℚ :=
  match cacheLookup cache d c with
  | some r => some r
  | none => latestRateBefore ratesDb c d

/-- Effective rate resolution for a run: lookup through the cache built by
`run_analysis` from the analyzed transactions, with DB fallback. -/
def runRateResolve (ratesDb : List ExchangeRateRec) (txs : List Transaction)
    (d : ℤ) (c : String) : Option ℚ :=
  rateLookup (buildCache ratesDb txs) ratesDb d c

namespace EntityTypeRulesEngine

/-- Model of `EntityTypeRulesEngine._evaluate_condition`
(entity_type_rules_engine.py lines 45-119).  Identical to the Category
evaluator except in the amount branches, which convert non-AMD amounts to
AMD through the rate cache / DB before comparing, and fail closed when no
rate is found.  `TransactionScopeRulesEngine._evaluate_condition`
(transaction_scope_rules_engine.py lines 48-132) is textually identical
to this function and shares this model. -/
def evaluateCondition (env : Env) (cache : List ((ℤ × String) × ℚ))
    (ratesDb : List ExchangeRateRec) (t : Transaction) (c : Condition) : Bool :=
  match c.field, c.type, c.value with
  | some field, some ctype, some value =>
    if field = "" || ctype = "" then false
    else
      match getDynamicValue t field with
      | none => false
      | some fvRaw =>
        let strFieldValue := valueToString fvRaw
        if ctype = "CONTAINS_FIELD_VALUE" || ctype = "NOT_CONTAINS_FIELD_VALUE" ||
            ctype = "EQUALS_FIELD_VALUE" then
          match getDynamicValue t value with
          | none => false
          | some vRaw =>
            let strValueFromField := valueToString vRaw
            if ctype = "CONTAINS_FIELD_VALUE" then
              strContains (pyLower strFieldValue) (pyLower strValueFromField)
            else if ctype = "NOT_CONTAINS_FIELD_VALUE" then
              !(strContains (pyLower strFieldValue) (pyLower strValueFromField))
            else
              decide (pyLower (pyTrim strFieldValue) = pyLower (pyTrim strValueFromField))
        else
          let strValueLower := pyLower value
          if ctype = "CONTAINS_KEYWORD" then
            (keywordList strValueLower).any (fun kw => strContains (pyLower strFieldValue) kw)
          else if ctype = "DOES_NOT_CONTAIN_KEYWORD" then
            !((keywordList strValueLower).any (fun kw => strContains (pyLower strFieldValue) kw))
          else if ctype = "EQUALS" then
            decide (pyLower (pyTrim strFieldValue) = pyTrim strValueLower)
          else if ctype = "REGEX_MATCH" then
            (env.regexSearch value strFieldValue).getD false
          else if field = "amount" && isNumericType ctype then
            match fvRaw with
            | .dec rawAmount =>
                if t.currency ≠ "AMD" then
                  match rateLookup cache ratesDb t.transactionDate t.currency with
                  | none => false
                  | some rate => numericCompare ctype value (rawAmount * rate)
                else numericCompare ctype value rawAmount
            | .str s =>
                match parseDecimal s with
                | some rawAmount =>
                    if t.currency ≠ "AMD" then
                      match rateLookup cache ratesDb t.transactionDate t.currency with
                      | none => false
                      | some rate => numericCompare ctype value (rawAmount * rate)
                    else numericCompare ctype value rawAmount
                | none => false
          else if isNumericType ctype then
            false
          else
            false
  | _, _, _ => false

end EntityTypeRulesEngine

/-- One block of the legacy flat condition-tree shape
`[{"logic": .., "checks": [..]}]`.  A `none` field models an absent
key. -/
structure FlatBlock where
  logic : Option String
  checks : Option (List Condition)
deriving DecidableEq

/-- One group of the nested shape
`{"root_logic": .., "groups": [{"group_logic": .., "conditions": [..]}]}`.
An absent `conditions` key defaults to `[]` via dict .get and is modelled
as the empty list. -/
structure CondGroup where
  groupLogic : Option String
  conditions : List Condition
deriving DecidableEq

/-- Persisted condition-tree JSON of a rule: the legacy flat list shape,
the nested object shape, or anything else (malformed, modelled
opaquely). -/
inductive CondTree where
  | legacy (blocks : List FlatBlock)
  | nested (rootLogic : Option String) (groups : List CondGroup)
  | malformed
deriving DecidableEq

namespace RulesEngine

/-- Model of `RulesEngine._check_rule` (rules_engine.py lines 136-147):
accepts ONLY the legacy flat list shape; any non-list JSON (in particular
the nested object shape) is reported as invalid structure and never
matches.  Only the first block of the list is consulted. -/
def checkRule (env : Env) (tree : CondTree) (t : Transaction) : Bool :=
  match tree with
  | .malformed => false
  | .nested _ _ => false
  | .legacy [] => false
  | .legacy (b :: _) =>
      let logic := pyUpper (b.logic.getD "AND")
      let checks := b.checks.getD []
      if checks.isEmpty then false
      else
        let results := checks.map (evaluateCondition env t)
        if logic = "AND" then results.all id
        else if logic = "OR" then results.any id
        else results.all id

end RulesEngine

namespace EntityTypeRulesEngine

/-- Model of `EntityTypeRulesEngine._evaluate_logic_group`
(entity_type_rules_engine.py lines 122-140). -/
def evaluateLogicGroup (env : Env) (cache : List ((ℤ × String) × ℚ))
    (ratesDb : List ExchangeRateRec) (t : Transaction) (g : CondGroup) : Bool :=
  if g.conditions.isEmpty then false
  else
    let results := g.conditions.map (evaluateCondition env cache ratesDb t)
    let logic := pyUpper (g.groupLogic.getD "AND")
    if logic = "AND" then results.all id
    else if logic = "OR" then results.any id
    else results.all id

/-- Nested-shape evaluation: root logic over the group results
(entity_type_rules_engine.py lines 172-187). -/
def nestedEval (env : Env) (cache : List ((ℤ × String) × ℚ))
    (ratesDb : List ExchangeRateRec) (t : Transaction)
    (rootLogic : Option String) (groups : List CondGroup) : Bool :=
  if groups.isEmpty then false
  else
    let results := groups.map (evaluateLogicGroup env cache ratesDb t)
    let logic := pyUpper (rootLogic.getD "AND")
    if logic = "AND" then results.all id
    else if logic = "OR" then results.any id
    else results.all id

/-- Model of `EntityTypeRulesEngine._check_rule`
(entity_type_rules_engine.py lines 144-188): accepts both shapes.  A
legacy list whose first block carries both `logic` and `checks` keys is
translated in memory to the nested shape with a single group; a legacy
list whose first block lacks one of those keys keeps the list value,
whose subsequent `.get` raises `AttributeError` — the method does not
catch it, modelled as `Except.error`. -/
def checkRule (env : Env) (cache : List ((ℤ × String) × ℚ))
    (ratesDb : List ExchangeRateRec) (tree : CondTree) (t : Transaction) :
    Except Unit Bool :=
  match tree with
  | .malformed => .ok false
  | .legacy [] => .ok false
  | .legacy (b :: _) =>
      match b.logic, b.checks with
      | some l, some cs =>
          .ok (nestedEval env cache ratesDb t (some l) [⟨some l, cs⟩])
      | _, _ => .error ()
  | .nested rootLogic groups => .ok (nestedEval env cache ratesDb t rootLogic groups)

end EntityTypeRulesEngine

namespace TransactionScopeRulesEngine

/-- Model of `TransactionScopeRulesEngine._check_rule`
(transaction_scope_rules_engine.py lines 135-146): same flat-only
structure as the Category engine's `_check_rule`, but evaluating
conditions with the converting evaluator (which is textually identical to
the Entity-Type one, see `EntityTypeRulesEngine.evaluateCondition`). -/
def checkRule (env : Env) (cache : List ((ℤ × String) × ℚ))
    (ratesDb : List ExchangeRateRec) (tree : CondTree) (t : Transaction) : Bool :=
  match tree with
  | .malformed => false
  | .nested _ _ => false
  | .legacy [] => false
  | .legacy (b :: _) =>
      let logic := pyUpper (b.logic.getD "AND")
      let checks := b.checks.getD []
      if checks.isEmpty then false
      else
        let results := checks.map (EntityTypeRulesEngine.evaluateCondition env cache ratesDb t)
        if logic = "AND" then results.all id
        else if logic = "OR" then results.any id
        else results.all id

end TransactionScopeRulesEngine

/-- One `TaxRule` row (models.py lines 154-201): the Category-domain rule.
`declarationPoint` is nullable (`on_delete=SET_NULL`); `declaration = none`
makes the rule global. -/
structure TaxRule where
  id : ℕ
  ruleName : String
  priority : ℤ
  declarationPoint : Option ℕ
  conditions : CondTree
  isActive : Bool
  declaration : Option ℕ
deriving DecidableEq

/-- One `EntityTypeRule` row (models.py lines 322-359). -/
structure EntityTypeRule where
  id : ℕ
  ruleName : String
  priority : ℤ
  entityTypeResult : String
  conditions : CondTree
  isActive : Bool
  declaration : Option ℕ
deriving DecidableEq

/-- One `TransactionScopeRule` row (models.py lines 362-399). -/
structure TransactionScopeRule where
  id : ℕ
  ruleName : String
  priority : ℤ
  scopeResult : String
  conditions : CondTree
  isActive : Bool
  declaration : Option ℕ
deriving DecidableEq

/-- One `UnmatchedTransaction` row (models.py lines 278-314): the review
queue entry, at most one per transaction (OneToOneField). -/
structure UnmatchedRecord where
  status : String
  assignedUser : Option ℕ
  resolutionDate : Option ℤ
deriving DecidableEq

/-- Category-domain mutable state of one transaction: the analysis-result
fields written by `RulesEngine.run_analysis` plus the optional queue
entry. -/
structure CatTx where
  tx : Transaction
  matchedRule : Option ℕ
  declarationPoint : Option ℕ
  record : Option UnmatchedRecord
deriving DecidableEq

/-- Entity-Type-domain mutable state of one transaction. -/
structure ETx where
  tx : Transaction
  entityType : String
deriving DecidableEq

/-- Scope-domain mutable state of one transaction. -/
structure STx where
  tx : Transaction
  transactionScope : String
deriving DecidableEq

namespace RulesEngine

/-- Ordering used by `order_by('priority', 'rule_name')`: ascending
priority, ties broken by rule name. -/
def ruleLE (a b : TaxRule) : Prop :=
  a.priority < b.priority ∨ (a.priority = b.priority ∧ a.ruleName ≤ b.ruleName)

instance : DecidableRel ruleLE := fun a b => by
  unfold ruleLE; exact inferInstance

instance : IsTotal TaxRule ruleLE :=
  ⟨fun a b => by
    unfold ruleLE
    rcases lt_trichotomy a.priority b.priority with h | h | h
    · exact Or.inl (Or.inl h)
    · rcases le_total a.ruleName b.ruleName with h2 | h2
      · exact Or.inl (Or.inr ⟨h, h2⟩)
      · exact Or.inr (Or.inr ⟨h.symm, h2⟩)
    · exact Or.inr (Or.inl h)⟩

instance : IsTrans TaxRule ruleLE :=
  ⟨fun a b c hab hbc => by
    unfold ruleLE at *
    rcases hab with h1 | ⟨h1, h1n⟩
    · rcases hbc with h2 | ⟨h2, _⟩
      · exact Or.inl (h1.trans h2)
      · exact Or.inl (h2 ▸ h1)
    · rcases hbc with h2 | ⟨h2, h2n⟩
      · exact Or.inl (h1 ▸ h2)
      · exact Or.inr ⟨h1.trans h2, h1n.trans h2n⟩⟩

/-- Visibility filter of `RulesEngine.__init__` (rules_engine.py lines
19-37): a rule is loaded iff it is active AND (global OR owned by the
current declaration). -/
def ruleVisible (declId : ℕ) (r : TaxRule) : Bool :=
  r.isActive && (r.declaration = none || r.declaration = some declId)

/-- Model of the rule loading in `RulesEngine.__init__`: select visible
rules, order by (priority, rule_name).  `distinct()` is inert here since
each row appears once. -/
def loadRules (allRules : List TaxRule) (declId : ℕ) : List TaxRule :=
  List.insertionSort ruleLE (allRules.filter (ruleVisible declId))

/-- First-match-wins rule selection of the analysis loops (rules_engine.py
lines 177-182): the first loaded rule whose condition tree matches. -/
def selectRule (allRules : List TaxRule) (declId : ℕ) (env : Env) (t : Transaction) :
    Option TaxRule :=
  (loadRules allRules declId).find? (fun r => checkRule env r.conditions t)

/-- Membership in the full-mode analysis set (rules_engine.py lines
154-170): income transactions of the declaration that are either
unclassified (`declaration_point` null) or carry a queue entry with
status PENDING_REVIEW or NEW_RULE_PROPOSED. -/
def inAnalysisFull (declId : ℕ) (s : CatTx) : Bool :=
  s.tx.declId = declId && !s.tx.isExpense &&
    (s.declarationPoint = none ||
      (match s.record with
       | some rec => rec.status = "PENDING_REVIEW" || rec.status = "NEW_RULE_PROPOSED"
       | none => false))

/-- Membership in the pending-only analysis set (rules_engine.py lines
223-237): unclassified income transactions, plus those whose queue entry
is PENDING_REVIEW. -/
def inAnalysisPending (declId : ℕ) (s : CatTx) : Bool :=
  s.tx.declId = declId && !s.tx.isExpense &&
    (s.declarationPoint = none ||
      (match s.record with
       | some rec => rec.status = "PENDING_REVIEW"
       | none => false))

/-- Clearing of stale classification fields on an unmatched transaction
(rules_engine.py lines 188-190): both references go to null, persisted by
the transaction bulk_update. -/
def clearTxFields (s : CatTx) : CatTx :=
  if s.matchedRule ≠ none ∨ s.declarationPoint ≠ none then
    { s with matchedRule := none, declarationPoint := none }
  else s

/-- Persisted effect of `RulesEngine.run_analysis` (full mode,
rules_engine.py lines 173-212) on one analyzed transaction.

Matched: the rule reference and its declaration point are written; an
existing queue entry whose transaction now has a non-null point is
RESOLVED with a timestamp; a matched entry whose rule carries a null
declaration point and whose status is not PENDING_REVIEW is reverted.

Unmatched with no entry: fields cleared, one new PENDING_REVIEW entry is
created for the triggering user.  Unmatched with an entry: the source
sets the entry's status to PENDING_REVIEW in memory and appends it to
`unmatched_records_to_clear`, but the later `to_revert` filter tests
`um.status != 'PENDING_REVIEW'` against the already-mutated status, so
the entry is excluded from the status bulk_update and the STORED status
keeps its previous value; only the transaction-field clearing is
persisted. -/
def fullStep (env : Env) (rules : List TaxRule) (now : ℤ) (user : ℕ) (s : CatTx) : CatTx :=
  match rules.find? (fun r => checkRule env r.conditions s.tx) with
  | some r =>
      let s1 := { s with matchedRule := some r.id, declarationPoint := r.declarationPoint }
      match s.record with
      | none => s1
      | some rec =>
          if r.declarationPoint ≠ none then
            { s1 with record := some { rec with status := "RESOLVED", resolutionDate := some now } }
          else if rec.status ≠ "PENDING_REVIEW" then
            { s1 with record := some { rec with status := "PENDING_REVIEW" } }
          else s1
  | none =>
      match s.record with
      | none =>
          { clearTxFields s with
              record := some { status := "PENDING_REVIEW", assignedUser := some user,
                               resolutionDate := none } }
      | some _ => clearTxFields s

/-- Model of `RulesEngine.run_analysis` (full mode): every transaction in
the analysis set is processed by `fullStep`; no other row is touched.
Per-transaction results are independent, so the batched bulk writes of
the source equal this per-row application. -/
def runAnalysis (env : Env) (rules : List TaxRule) (now : ℤ) (user : ℕ)
    (declId : ℕ) (db : List CatTx) : List CatTx :=
  db.map (fun s => if inAnalysisFull declId s then fullStep env rules now user s else s)

/-- Persisted effect of `RulesEngine.run_analysis_pending_only`
(rules_engine.py lines 240-277) on one analyzed transaction: a matched
transaction with an entry always gets the entry RESOLVED with a
timestamp (no partition by declaration point here); an unmatched one
gets its fields cleared, and a new PENDING_REVIEW entry only when it had
none. -/
def pendingStep (env : Env) (rules : List TaxRule) (now : ℤ) (user : ℕ) (s : CatTx) : CatTx :=
  match rules.find? (fun r => checkRule env r.conditions s.tx) with
  | some r =>
      let s1 := { s with matchedRule := some r.id, declarationPoint := r.declarationPoint }
      match s.record with
      | none => s1
      | some rec =>
          { s1 with record := some { rec with status := "RESOLVED", resolutionDate := some now } }
  | none =>
      match s.record with
      | none =>
          { clearTxFields s with
              record := some { status := "PENDING_REVIEW", assignedUser := some user,
                               resolutionDate := none } }
      | some _ => clearTxFields s

/-- Model of `RulesEngine.run_analysis_pending_only`. -/
def runAnalysisPendingOnly (env : Env) (rules : List TaxRule) (now : ℤ) (user : ℕ)
    (declId : ℕ) (db : List CatTx) : List CatTx :=
  db.map (fun s => if inAnalysisPending declId s then pendingStep env rules now user s else s)

end RulesEngine

namespace EntityTypeRulesEngine

/-- Analysis-set membership of `EntityTypeRulesEngine.run_analysis`
(entity_type_rules_engine.py lines 195-207): all income transactions of
the declaration when `run_all`, otherwise only those still
UNDETERMINED. -/
def inAnalysis (runAll : Bool) (declId : ℕ) (s : ETx) : Bool :=
  s.tx.declId = declId && !s.tx.isExpense && (runAll || s.entityType = "UNDETERMINED")

/-- First-match scan over the loaded rules; a raising `_check_rule`
aborts the whole run (`Except.error`). -/
def matchRule (env : Env) (cache : List ((ℤ × String) × ℚ))
    (ratesDb : List ExchangeRateRec) (t : Transaction) :
    List EntityTypeRule → Except Unit (Option EntityTypeRule)
  | [] => .ok none
  | r :: rs =>
      match checkRule env cache ratesDb r.conditions t with
      | .error e => .error e
      | .ok true => .ok (some r)
      | .ok false => matchRule env cache ratesDb t rs

/-- Effect of the analysis loop (entity_type_rules_engine.py lines
228-235) on one analyzed transaction: the first matching rule's result is
written (the source skips the write when the value is unchanged, which
yields the same final state); no match leaves the row untouched. -/
def stepTx (env : Env) (cache : List ((ℤ × String) × ℚ))
    (ratesDb : List ExchangeRateRec) (rules : List EntityTypeRule) (s : ETx) :
    Except Unit ETx :=
  match matchRule env cache ratesDb s.tx rules with
  | .error e => .error e
  | .ok (some r) => .ok { s with entityType := r.entityTypeResult }
  | .ok none => .ok s

/-- Sequential processing of the rows: analyzed rows are stepped, others
pass through; the first exception aborts (and, by `transaction.atomic`,
rolls everything back, so no post-state exists — modelled by
`Except.error`). -/
def processAll (env : Env) (cache : List ((ℤ × String) × ℚ))
    (ratesDb : List ExchangeRateRec) (rules : List EntityTypeRule)
    (runAll : Bool) (declId : ℕ) : List ETx → Except Unit (List ETx)
  | [] => .ok []
  | s :: rest =>
      match (if inAnalysis runAll declId s then stepTx env cache ratesDb rules s else .ok s) with
      | .error e => .error e
      | .ok t =>
          match processAll env cache ratesDb rules runAll declId rest with
          | .error e => .error e
          | .ok ts => .ok (t :: ts)

/-- Model of `EntityTypeRulesEngine.run_analysis`: builds the rate cache
from the analyzed transactions, then processes every row. -/
def runAnalysis (env : Env) (ratesDb : List ExchangeRateRec)
    (rules : List EntityTypeRule) (runAll : Bool) (declId : ℕ)
    (db : List ETx) : Except Unit (List ETx) :=
  let cache := buildCache ratesDb ((db.filter (inAnalysis runAll declId)).map (fun s => s.tx))
  processAll env cache ratesDb rules runAll declId db

end EntityTypeRulesEngine

namespace TransactionScopeRulesEngine

/-- Analysis-set membership of `TransactionScopeRulesEngine.run_analysis`
(transaction_scope_rules_engine.py lines 150-165). -/
def inAnalysis (runAll : Bool) (declId : ℕ) (s : STx) : Bool :=
  s.tx.declId = declId && !s.tx.isExpense && (runAll || s.transactionScope = "UNDETERMINED")

/-- Effect of the analysis loop (transaction_scope_rules_engine.py lines
188-204) on one analyzed transaction: first matching rule's scope result
is written; with no match, a still-UNDETERMINED transaction is defaulted
to LOCAL, any other value is left alone. -/
def stepTx (env : Env) (cache : List ((ℤ × String) × ℚ))
    (ratesDb : List ExchangeRateRec) (rules : List TransactionScopeRule) (s : STx) : STx :=
  match rules.find? (fun r => checkRule env cache ratesDb r.conditions s.tx) with
  | some r => { s with transactionScope := r.scopeResult }
  | none =>
      if s.transactionScope = "UNDETERMINED" then { s with transactionScope := "LOCAL" }
      else s

/-- Model of `TransactionScopeRulesEngine.run_analysis`. -/
def runAnalysis (env : Env) (ratesDb : List ExchangeRateRec)
    (rules : List TransactionScopeRule) (runAll : Bool) (declId : ℕ)
    (db : List STx) : List STx :=
  let cache := buildCache ratesDb ((db.filter (inAnalysis runAll declId)).map (fun s => s.tx))
  db.map (fun s => if inAnalysis runAll declId s then stepTx env cache ratesDb rules s else s)

end TransactionScopeRulesEngine

/-- Environment whose regex engine never matches (also models an invalid
pattern); the regex branch is irrelevant to the concrete scenarios. -/
def envNone : Env := ⟨fun _ _ => none⟩

/-- Sample income transaction in local currency. -/
def txSalary : Transaction :=
  { txId := 1, declId := 1, isExpense := false, transactionDate := 0, amount := 100,
    currency := "AMD", description := "Monthly Salary Payment", sender := "ACME LLC",
    senderAccount := none, declFirstName := none, declLastName := none }

/-- Sample income transaction of 100 USD dated day 5. -/
def txUsd : Transaction :=
  { txId := 2, declId := 1, isExpense := false, transactionDate := 5, amount := 100,
    currency := "USD", description := "wire", sender := "X",
    senderAccount := none, declFirstName := none, declLastName := none }

/-- A USD rate of 400 dated day 4 (the day before txUsd). -/
def ratesD4 : List ExchangeRateRec := [⟨4, "USD", 400⟩]

/-- A USD rate of 400 dated day 5 (the same day as txUsd). -/
def ratesD5 : List ExchangeRateRec := [⟨5, "USD", 400⟩]

/-- The condition "amount > 30000". -/
def condBig : Condition := ⟨some "amount", some "GREATER_THAN", some "30000"⟩

/-- The condition "description contains salary". -/
def condSalary : Condition := ⟨some "description", some "CONTAINS_KEYWORD", some "salary"⟩

/-- Single-group salary rule in the legacy flat shape. -/
def treeSalaryFlat : CondTree := .legacy [⟨some "AND", some [condSalary]⟩]

/-- The same logic in the nested shape with a single group. -/
def treeSalaryNested : CondTree := .nested (some "AND") [⟨some "AND", [condSalary]⟩]

/-- Classified income transaction of declaration 1 with no queue entry. -/
def sClassified : CatTx := ⟨txSalary, some 9, some 5, none⟩

/-- Rule "description contains salary", priority 10, global, active. -/
def c5RuleA : TaxRule := ⟨10, "A", 10, some 1, treeSalaryFlat, true, none⟩

/-- Rule "description contains sal", priority 20, global, active. -/
def c5RuleB : TaxRule :=
  ⟨20, "B", 20, some 2,
    .legacy [⟨some "AND", some [⟨some "description", some "CONTAINS_KEYWORD", some "sal"⟩]⟩],
    true, none⟩

/-- Inactive rule with the best priority of all. -/
def c5RuleC : TaxRule := ⟨30, "C", 5, some 3, treeSalaryFlat, false, none⟩

/-- Rule table for the C5 scenario. -/
def c5Rules : List TaxRule := [c5RuleB, c5RuleA, c5RuleC]

/-- Category rule list for the C7 scenario: one salary rule with a
declaration point. -/
def c7Rules : List TaxRule := [c5RuleA]

/-- Unmatched transaction with no queue entry. -/
def c7TxNoMatch : CatTx := ⟨{ txSalary with txId := 11, description := "rent" }, none, none, none⟩

/-- Transaction with a proposed-rule queue entry that a rule now
matches. -/
def c7TxProposed : CatTx :=
  ⟨{ txSalary with txId := 12 }, none, none, some ⟨"NEW_RULE_PROPOSED", some 4, none⟩⟩

/-- Freshly matched transaction with no queue entry. -/
def c7TxFresh : CatTx := ⟨{ txSalary with txId := 13 }, none, none, none⟩

/-- Transaction table for the C7 scenario. -/
def c7Db : List CatTx := [c7TxNoMatch, c7TxProposed, c7TxFresh]

/-- Undetermined Entity-Type row for the C8 scenario. -/
def c8ETx : ETx := ⟨txSalary, "UNDETERMINED"⟩

/-- Undetermined Scope row for the C8 scenario. -/
def c8STx : STx := ⟨txSalary, "UNDETERMINED"⟩

/-- Transaction with a stale classification and a proposed-rule queue
entry, to exercise the full-mode revert path. -/
def c9Tx : CatTx :=
  ⟨{ txSalary with txId := 21 }, some 7, some 3, some ⟨"NEW_RULE_PROPOSED", some 4, none⟩⟩

section Helpers

/-- Reflexivity of the rule ordering. -/
theorem ruleLE_refl (a : TaxRule) : RulesEngine.ruleLE a a := Or.inr ⟨rfl, le_refl _⟩

/-- In a list sorted by a reflexive relation, the first element found by a
predicate is below every element satisfying the predicate. -/
theorem find_first_minimal {α : Type} {le : α → α → Prop} (hrefl : ∀ a, le a a)
    {p : α → Bool} :
    ∀ {l : List α}, l.Sorted le → ∀ {a : α}, l.find? p = some a →
      ∀ b ∈ l, p b = true → le a b := by
  intro l
  induction l with
  | nil => intro _ a ha; simp at ha
  | cons x xs ih =>
      intro hs a hfind b hb hpb
      have hx := (List.sorted_cons.mp hs).1
      have hxs := (List.sorted_cons.mp hs).2
      by_cases hpx : p x = true
      · rw [List.find?_cons_of_pos _ hpx] at hfind
        injection hfind with h
        subst h
        rcases List.mem_cons.mp hb with rfl | hbxs
        · exact hrefl _
        · exact hx _ hbxs
      · rw [List.find?_cons_of_neg _ (by simpa using hpx)] at hfind
        rcases List.mem_cons.mp hb with rfl | hbxs
        · exact absurd hpb hpx
        · exact ih hxs hfind b hbxs hpb

/-- Mapping an analyzed row through the guarded step keeps it in the
output. -/
theorem mem_map_ite_pos {α : Type} (pred : α → Bool) (f : α → α) {s : α} {db : List α}
    (hs : s ∈ db) (hp : pred s = true) :
    f s ∈ db.map (fun x => if pred x then f x else x) := by
  have h := List.mem_map_of_mem (fun x => if pred x then f x else x) hs
  simpa [hp] using h

/-- Rows outside the analysis set pass through a guarded map unchanged. -/
theorem mem_map_ite_neg {α : Type} (pred : α → Bool) (f : α → α) {s : α} {db : List α}
    (hs : s ∈ db) (hp : pred s = false) :
    s ∈ db.map (fun x => if pred x then f x else x) := by
  have h := List.mem_map_of_mem (fun x => if pred x then f x else x) hs
  simpa [hp] using h

/-- Every input row of a successful Entity-Type pass corresponds to an
output row produced by its guarded step. -/
theorem processAll_mem {env : Env} {cache : List ((ℤ × String) × ℚ)}
    {ratesDb : List ExchangeRateRec} {rules : List EntityTypeRule}
    {runAll : Bool} {declId : ℕ} :
    ∀ {l out : List ETx},
      EntityTypeRulesEngine.processAll env cache ratesDb rules runAll declId l = .ok out →
      ∀ s ∈ l,
        ∃ t, (if EntityTypeRulesEngine.inAnalysis runAll declId s
                then EntityTypeRulesEngine.stepTx env cache ratesDb rules s
                else .ok s) = .ok t ∧ t ∈ out := by
  intro l
  induction l with
  | nil => intro out h s hs; cases hs
  | cons x xs ih =>
      intro out h s hs
      simp only [EntityTypeRulesEngine.processAll] at h
      split at h
      · exact Except.noConfusion h
      · rename_i t heq
        split at h
        · exact Except.noConfusion h
        · rename_i ts heq2
          injection h with h
          subst h
          rcases List.mem_cons.mp hs with rfl | hsx
          · exact ⟨t, heq, List.mem_cons_self _ _⟩
          · obtain ⟨u, hu1, hu2⟩ := ih heq2 s hsx
            exact ⟨u, hu1, List.mem_cons_of_mem _ hu2⟩

/-- A fold starting from a present accumulator stays present. -/
theorem pickLatest_acc_ne_none :
    ∀ (l : List ExchangeRateRec) (r : ExchangeRateRec),
      pickLatest (some r) l ≠ none := by
  intro l
  induction l with
  | nil => intro r h; cases h
  | cons x xs ih => intro r; simp only [pickLatest]; exact ih _

/-- Characterization of the latest-date fold: the result is drawn from the
list or the accumulator, and dominates the dates of both. -/
theorem pickLatest_spec :
    ∀ (l : List ExchangeRateRec) (acc : Option ExchangeRateRec) (b : ExchangeRateRec),
      pickLatest acc l = some b →
      (b ∈ l ∨ acc = some b) ∧ (∀ x ∈ l, x.date ≤ b.date) ∧
        (∀ a, acc = some a → a.date ≤ b.date) := by
  intro l
  induction l with
  | nil =>
      intro acc b h
      refine ⟨Or.inr h, by simp, ?_⟩
      intro a ha
      rw [ha] at h
      injection h with h
      exact le_of_eq (congrArg ExchangeRateRec.date h)
  | cons x xs ih =>
      intro acc b h
      cases acc with
      | none =>
          simp only [pickLatest] at h
          obtain ⟨h1, h2, h3⟩ := ih (some x) b h
          refine ⟨?_, ?_, by intro a ha; cases ha⟩
          · rcases h1 with h1 | h1
            · exact Or.inl (List.mem_cons_of_mem _ h1)
            · injection h1 with h1
              subst h1
              exact Or.inl (List.mem_cons_self _ _)
          · intro y hy
            rcases List.mem_cons.mp hy with rfl | hyxs
            · exact h3 _ rfl
            · exact h2 _ hyxs
      | some c =>
          simp only [pickLatest] at h
          obtain ⟨h1, h2, h3⟩ := ih _ b h
          have hm : (if c.date < x.date then x else c).date ≤ b.date := h3 _ rfl
          have hx_le : x.date ≤ b.date := by
            by_cases hc : c.date < x.date
            · simpa [hc] using hm
            · rw [if_neg hc] at hm
              exact le_trans (le_of_not_lt hc) hm
          have hc_le : c.date ≤ b.date := by
            by_cases hc : c.date < x.date
            · rw [if_pos hc] at hm
              exact le_trans (le_of_lt hc) hm
            · rw [if_neg hc] at hm
              exact hm
          refine ⟨?_, ?_, ?_⟩
          · rcases h1 with h1 | h1
            · exact Or.inl (List.mem_cons_of_mem _ h1)
            · by_cases hcx : c.date < x.date
              · rw [if_pos hcx] at h1
                injection h1 with h1
                subst h1
                exact Or.inl (List.mem_cons_self _ _)
              · rw [if_neg hcx] at h1
                exact Or.inr h1
          · intro y hy
            rcases List.mem_cons.mp hy with rfl | hyxs
            · exact hx_le
            · exact h2 _ hyxs
          · intro a ha
            injection ha with ha
            subst ha
            exact hc_le

/-- A successful strictly-prior lookup returns the rate of a record of the
right currency dated strictly before the given date and maximal among
such records. -/
theorem latestRateBefore_some {ratesDb : List ExchangeRateRec} {c : String} {d : ℤ}
    {r : ℚ} (h : latestRateBefore ratesDb c d = some r) :
    ∃ rec, rec ∈ ratesDb ∧ rec.currencyCode = c ∧ rec.date < d ∧ rec.rate = r ∧
      ∀ rec2 ∈ ratesDb, rec2.currencyCode = c → rec2.date < d → rec2.date ≤ rec.date := by
  unfold latestRateBefore at h
  cases hp : pickLatest none (ratesDb.filter (fun x => decide (x.currencyCode = c ∧ x.date < d))) with
  | none => rw [hp] at h; cases h
  | some b =>
      rw [hp] at h
      injection h with h
      obtain ⟨h1, h2, _⟩ := pickLatest_spec _ _ _ hp
      rcases h1 with h1 | h1
      · have hmem := List.mem_filter.mp h1
        have hpred := of_decide_eq_true hmem.2
        refine ⟨b, hmem.1, hpred.1, hpred.2, h, ?_⟩
        intro rec2 hrec2 hc2 hd2
        exact h2 _ (List.mem_filter.mpr ⟨hrec2, decide_eq_true ⟨hc2, hd2⟩⟩)
      · cases h1

/-- When no record of the currency is dated strictly before the date, the
strictly-prior lookup fails. -/
theorem latestRateBefore_none {ratesDb : List ExchangeRateRec} {c : String} {d : ℤ}
    (h : ∀ rec ∈ ratesDb, rec.currencyCode = c → ¬ rec.date < d) :
    latestRateBefore ratesDb c d = none := by
  unfold latestRateBefore
  have hfil : ratesDb.filter (fun x => decide (x.currencyCode = c ∧ x.date < d)) = [] := by
    rw [List.filter_eq_nil_iff]
    intro a ha
    simp only [decide_eq_true_eq]
    rintro ⟨h1, h2⟩
    exact h a ha h1 h2
  rw [hfil]
  rfl

/-- A cache hit of the run-scoped rate cache comes from a DB record dated
exactly on the looked-up date with the looked-up currency. -/
theorem cacheLookup_buildCache_some {ratesDb : List ExchangeRateRec}
    {txs : List Transaction} {d : ℤ} {c : String} {r : ℚ}
    (h : cacheLookup (buildCache ratesDb txs) d c = some r) :
    ∃ rec, rec ∈ ratesDb ∧ rec.date = d ∧ rec.currencyCode = c ∧ rec.rate = r := by
  unfold cacheLookup at h
  cases hl : ((buildCache ratesDb txs).filter (fun p => decide (p.1.1 = d ∧ p.1.2 = c))).getLast? with
  | none => rw [hl] at h; cases h
  | some pair =>
      rw [hl] at h
      injection h with h
      have hmem : pair ∈ (buildCache ratesDb txs).filter (fun p => decide (p.1.1 = d ∧ p.1.2 = c)) :=
        List.mem_of_getLast?_eq_some hl
      have h1 := (List.mem_filter.mp hmem).1
      have h2 := of_decide_eq_true (List.mem_filter.mp hmem).2
      unfold buildCache at h1
      obtain ⟨rec, hrec, hpair⟩ := List.mem_map.mp h1
      refine ⟨rec, (List.mem_filter.mp hrec).1, ?_, ?_, ?_⟩
      · have : pair.1.1 = rec.date := by rw [← hpair]
        rw [← this]; exact h2.1
      · have : pair.1.2 = rec.currencyCode := by rw [← hpair]
        rw [← this]; exact h2.2
      · have : pair.2 = rec.rate := by rw [← hpair]
        rw [← this]; exact h

/-- When the cache has no entry for the key, the dict lookup fails. -/
theorem cacheLookup_buildCache_none {ratesDb : List ExchangeRateRec}
    {txs : List Transaction} {d : ℤ} {c : String}
    (h : ∀ rec ∈ ratesDb, rec.currencyCode = c → rec.date ≠ d) :
    cacheLookup (buildCache ratesDb txs) d c = none := by
  unfold cacheLookup
  have hfil : (buildCache ratesDb txs).filter (fun p => decide (p.1.1 = d ∧ p.1.2 = c)) = [] := by
    rw [List.filter_eq_nil_iff]
    intro pair hpair
    simp only [decide_eq_true_eq]
    rintro ⟨h1, h2⟩
    unfold buildCache at hpair
    obtain ⟨rec, hrec, heq⟩ := List.mem_map.mp hpair
    have hd : rec.date = d := by rw [← heq] at h1; exact h1
    have hc : rec.currencyCode = c := by rw [← heq] at h2; exact h2
    exact h rec (List.mem_filter.mp hrec).1 hc hd
  rw [hfil]
  rfl

/-- Unfolding of the visibility predicate into propositions. -/
theorem ruleVisible_iff {declId : ℕ} {r : TaxRule} :
    RulesEngine.ruleVisible declId r = true ↔
      (r.isActive = true ∧ (r.declaration = none ∨ r.declaration = some declId)) := by
  simp [RulesEngine.ruleVisible]

end Helpers

/-- Reduction of the Category evaluator on an amount greater-than
condition: the raw amount is compared, no currency conversion occurs. -/
theorem catEval_amount_gt (env : Env) (t : Transaction) (v : String) :
    RulesEngine.evaluateCondition env t ⟨some "amount", some "GREATER_THAN", some v⟩ =
      (match parseDecimal v with
       | some n => decide (t.amount > n)
       | none => false) := rfl

/-- Reduction of the converting evaluator on an amount greater-than
condition: a non-AMD amount is multiplied by the resolved rate first, and
a missing rate fails the condition. -/
theorem fxEval_amount_gt (env : Env) (cache : List ((ℤ × String) × ℚ))
    (ratesDb : List ExchangeRateRec) (t : Transaction) (v : String) :
    EntityTypeRulesEngine.evaluateCondition env cache ratesDb t
        ⟨some "amount", some "GREATER_THAN", some v⟩ =
      (if t.currency ≠ "AMD" then
        match rateLookup cache ratesDb t.transactionDate t.currency with
        | none => false
        | some rate =>
            match parseDecimal v with
            | some n => decide (t.amount * rate > n)
            | none => false
      else
        match parseDecimal v with
        | some n => decide (t.amount > n)
        | none => false) := rfl

/-- C1 counterexample: one single-group rule written in both persisted
shapes.  The Category matcher (`RulesEngine._check_rule`) matches the
legacy flat form but treats the nested form as invalid structure (it is
not a JSON list) and never matches it; the Scope matcher behaves the same
way.  Only the Entity-Type matcher accepts both shapes, so the claimed
equivalence across all three domains fails. -/
theorem C1_counterexample :
    RulesEngine.checkRule envNone treeSalaryFlat txSalary = true ∧
    RulesEngine.checkRule envNone treeSalaryNested txSalary = false ∧
    TransactionScopeRulesEngine.checkRule envNone [] [] treeSalaryFlat txSalary = true ∧
    TransactionScopeRulesEngine.checkRule envNone [] [] treeSalaryNested txSalary = false ∧
    EntityTypeRulesEngine.checkRule envNone [] [] treeSalaryFlat txSalary = .ok true ∧
    EntityTypeRulesEngine.checkRule envNone [] [] treeSalaryNested txSalary = .ok true :=
  ⟨by decide, by decide, by decide, by decide, rfl, rfl⟩

/-- C1 (amended): only the Entity-Type rule matcher accepts both persisted
condition-tree shapes; on it, a legacy flat tree whose first block carries
logic and checks matches exactly the same transactions as the nested
shape with the single corresponding group.  The Category and Scope
matchers accept only the legacy flat list: a nested-shape tree never
matches any transaction there. -/
theorem C1_format_acceptance (env : Env) (cache : List ((ℤ × String) × ℚ))
    (ratesDb : List ExchangeRateRec) (l : String) (cs : List Condition)
    (bs : List FlatBlock) (t : Transaction) :
    EntityTypeRulesEngine.checkRule env cache ratesDb (.legacy (⟨some l, some cs⟩ :: bs)) t =
      EntityTypeRulesEngine.checkRule env cache ratesDb (.nested (some l) [⟨some l, cs⟩]) t ∧
    (∀ rootLogic groups, RulesEngine.checkRule env (.nested rootLogic groups) t = false) ∧
    (∀ rootLogic groups,
      TransactionScopeRulesEngine.checkRule env cache ratesDb (.nested rootLogic groups) t = false) :=
  ⟨rfl, fun _ _ => rfl, fun _ _ => rfl⟩

/-- C2 counterexample: amount 100 in USD, rate 400 available for the prior
day; "amount > 30000" is claimed to convert in every domain, but the
Category evaluator compares the raw amount and returns false, while the
Entity-Type evaluator on identical inputs converts and returns true. -/
theorem C2_counterexample :
    RulesEngine.evaluateCondition envNone txUsd condBig = false ∧
    EntityTypeRulesEngine.evaluateCondition envNone (buildCache ratesD4 [txUsd]) ratesD4
      txUsd condBig = true := by
  decide

/-- C2 (amended): in the Entity-Type and Scope condition evaluators a
numeric comparison on the amount of a non-AMD transaction multiplies the
raw amount by the resolved rate before comparing and fails closed when no
rate resolves; the Category evaluator compares the raw amount without any
conversion. -/
theorem C2_amount_conversion (env : Env) (cache : List ((ℤ × String) × ℚ))
    (ratesDb : List ExchangeRateRec) (t : Transaction) (v : String) (q r : ℚ)
    (hv : parseDecimal v = some q) :
    (t.currency ≠ "AMD" →
      rateLookup cache ratesDb t.transactionDate t.currency = some r →
      EntityTypeRulesEngine.evaluateCondition env cache ratesDb t
          ⟨some "amount", some "GREATER_THAN", some v⟩ = decide (t.amount * r > q)) ∧
    (t.currency ≠ "AMD" →
      rateLookup cache ratesDb t.transactionDate t.currency = none →
      EntityTypeRulesEngine.evaluateCondition env cache ratesDb t
          ⟨some "amount", some "GREATER_THAN", some v⟩ = false) ∧
    RulesEngine.evaluateCondition env t ⟨some "amount", some "GREATER_THAN", some v⟩ =
      decide (t.amount > q) := by
  refine ⟨?_, ?_, ?_⟩
  · intro hc hr
    rw [fxEval_amount_gt, if_pos hc, hr, hv]
  · intro hc hr
    rw [fxEval_amount_gt, if_pos hc, hr]
  · rw [catEval_amount_gt, hv]

/-- Witness for C2: the conversion branch and the raw-comparison branch at
the concrete USD scenario. -/
theorem C2_amount_conversion_witness :
    EntityTypeRulesEngine.evaluateCondition envNone (buildCache ratesD4 [txUsd]) ratesD4 txUsd
        ⟨some "amount", some "GREATER_THAN", some "30000"⟩ =
      decide ((txUsd.amount * 400 : ℚ) > 30000) ∧
    RulesEngine.evaluateCondition envNone txUsd ⟨some "amount", some "GREATER_THAN", some "30000"⟩ =
      decide ((txUsd.amount : ℚ) > 30000) :=
  ⟨(C2_amount_conversion envNone (buildCache ratesD4 [txUsd]) ratesD4 txUsd "30000" 30000 400
      (by decide)).1 (by decide) (by decide),
   (C2_amount_conversion envNone (buildCache ratesD4 [txUsd]) ratesD4 txUsd "30000" 30000 400
      (by decide)).2.2⟩

/-- C3 counterexample: one USD rate dated exactly on the transaction's day
(day 5), no strictly-prior rate at all.  The claim says such a rate is
never used and the condition fails; but the run pre-fetches same-day rates
into the cache, the evaluator consults the cache first, and the condition
"amount > 30000" succeeds through the same-day rate. -/
theorem C3_counterexample :
    latestRateBefore ratesD5 "USD" 5 = none ∧
    runRateResolve ratesD5 [txUsd] 5 "USD" = some 400 ∧
    EntityTypeRulesEngine.evaluateCondition envNone (buildCache ratesD5 [txUsd]) ratesD5
      txUsd condBig = true := by
  decide

/-- C3 (amended): rate resolution during a run first consults the
run-scoped cache — which holds exactly the DB rates dated on an analyzed
transaction's own date — and only then falls back to the record with the
latest date strictly before the transaction's date; a rate dated after
the transaction's date is never used, and when neither a same-day cached
rate nor a strictly-prior record exists the resolution yields none (and
the condition then fails, see the C2 theorem). -/
theorem C3_rate_resolution (ratesDb : List ExchangeRateRec) :
    (∀ c d r, latestRateBefore ratesDb c d = some r →
      ∃ rec, rec ∈ ratesDb ∧ rec.currencyCode = c ∧ rec.date < d ∧ rec.rate = r ∧
        ∀ rec2 ∈ ratesDb, rec2.currencyCode = c → rec2.date < d → rec2.date ≤ rec.date) ∧
    (∀ txs d c r, cacheLookup (buildCache ratesDb txs) d c = some r →
      ∃ rec, rec ∈ ratesDb ∧ rec.date = d ∧ rec.currencyCode = c ∧ rec.rate = r) ∧
    (∀ txs d c r, runRateResolve ratesDb txs d c = some r →
      ∃ rec, rec ∈ ratesDb ∧ rec.currencyCode = c ∧ rec.date ≤ d ∧ rec.rate = r) ∧
    (∀ txs d c, (∀ rec ∈ ratesDb, rec.currencyCode = c → rec.date ≠ d) →
      (∀ rec ∈ ratesDb, rec.currencyCode = c → ¬ rec.date < d) →
      runRateResolve ratesDb txs d c = none) := by
  refine ⟨?_, ?_, ?_, ?_⟩
  · intro c d r h
    exact latestRateBefore_some h
  · intro txs d c r h
    exact cacheLookup_buildCache_some h
  · intro txs d c r h
    unfold runRateResolve rateLookup at h
    cases hcache : cacheLookup (buildCache ratesDb txs) d c with
    | some rr =>
        rw [hcache] at h
        injection h with h
        subst h
        obtain ⟨rec, h1, h2, h3, h4⟩ := cacheLookup_buildCache_some hcache
        exact ⟨rec, h1, h3, le_of_eq h2, h4⟩
    | none =>
        rw [hcache] at h
        obtain ⟨rec, h1, h2, h3, h4, _⟩ := latestRateBefore_some h
        exact ⟨rec, h1, h2, le_of_lt h3, h4⟩
  · intro txs d c hsame hprev
    unfold runRateResolve rateLookup
    rw [cacheLookup_buildCache_none hsame]
    exact latestRateBefore_none hprev

/-- Witness for C3: the strictly-prior lookup at day 5 finds the day-4
rate and its maximality, and resolution at day 3 (no same-day, no prior
record) yields none. -/
theorem C3_rate_resolution_witness :
    (∃ rec, rec ∈ ratesD4 ∧ rec.currencyCode = "USD" ∧ rec.date < 5 ∧ rec.rate = 400 ∧
      ∀ rec2 ∈ ratesD4, rec2.currencyCode = "USD" → rec2.date < 5 → rec2.date ≤ rec.date) ∧
    runRateResolve ratesD4 [txUsd] 3 "USD" = none :=
  ⟨(C3_rate_resolution ratesD4).1 "USD" 5 400 (by decide),
   (C3_rate_resolution ratesD4).2.2.2 [txUsd] 3 "USD" (by decide) (by decide)⟩

/-- C4 counterexample: a classified income transaction with no queue entry
is NOT in the Category full-mode analysis set, and the full run leaves it
completely untouched even though evaluating it (here against an empty
rule set) would have changed it — so the Category full mode does not
re-evaluate every income transaction of the declaration. -/
theorem C4_counterexample :
    sClassified.tx.declId = 1 ∧ sClassified.tx.isExpense = false ∧
    RulesEngine.inAnalysisFull 1 sClassified = false ∧
    RulesEngine.runAnalysis envNone [] 0 0 1 [sClassified] = [sClassified] ∧
    RulesEngine.fullStep envNone [] 0 0 sClassified ≠ sClassified := by
  decide

/-- C4 (amended): the Entity-Type and Scope full-mode runs re-evaluate
every income transaction of the declaration; the Category full-mode run
re-evaluates only income transactions that are unclassified or whose
queue entry is PENDING_REVIEW or NEW_RULE_PROPOSED.  The pending-style
modes re-evaluate only currently-undetermined transactions (plus, for
Category, PENDING_REVIEW queue entries) and touch no other
transaction. -/
theorem C4_run_modes (declId : ℕ) :
    (∀ s : ETx, EntityTypeRulesEngine.inAnalysis true declId s = true ↔
      (s.tx.declId = declId ∧ s.tx.isExpense = false)) ∧
    (∀ s : ETx, EntityTypeRulesEngine.inAnalysis false declId s = true ↔
      (s.tx.declId = declId ∧ s.tx.isExpense = false ∧ s.entityType = "UNDETERMINED")) ∧
    (∀ s : STx, TransactionScopeRulesEngine.inAnalysis true declId s = true ↔
      (s.tx.declId = declId ∧ s.tx.isExpense = false)) ∧
    (∀ s : STx, TransactionScopeRulesEngine.inAnalysis false declId s = true ↔
      (s.tx.declId = declId ∧ s.tx.isExpense = false ∧ s.transactionScope = "UNDETERMINED")) ∧
    (∀ s : CatTx, RulesEngine.inAnalysisFull declId s = true ↔
      (s.tx.declId = declId ∧ s.tx.isExpense = false ∧
        (s.declarationPoint = none ∨ ∃ rec, s.record = some rec ∧
          (rec.status = "PENDING_REVIEW" ∨ rec.status = "NEW_RULE_PROPOSED")))) ∧
    (∀ s : CatTx, RulesEngine.inAnalysisPending declId s = true ↔
      (s.tx.declId = declId ∧ s.tx.isExpense = false ∧
        (s.declarationPoint = none ∨ ∃ rec, s.record = some rec ∧
          rec.status = "PENDING_REVIEW"))) ∧
    (∀ env rules now user db (s : CatTx), s ∈ db →
      RulesEngine.inAnalysisPending declId s = false →
      s ∈ RulesEngine.runAnalysisPendingOnly env rules now user declId db) ∧
    (∀ env ratesDb rules db (s : STx), s ∈ db →
      TransactionScopeRulesEngine.inAnalysis false declId s = false →
      s ∈ TransactionScopeRulesEngine.runAnalysis env ratesDb rules false declId db) ∧
    (∀ env ratesDb rules db out (s : ETx),
      EntityTypeRulesEngine.runAnalysis env ratesDb rules false declId db = .ok out →
      s ∈ db → EntityTypeRulesEngine.inAnalysis false declId s = false → s ∈ out) := by
  refine ⟨?_, ?_, ?_, ?_, ?_, ?_, ?_, ?_, ?_⟩
  · intro s
    simp [EntityTypeRulesEngine.inAnalysis]
  · intro s
    simp [EntityTypeRulesEngine.inAnalysis, and_assoc]
  · intro s
    simp [TransactionScopeRulesEngine.inAnalysis]
  · intro s
    simp [TransactionScopeRulesEngine.inAnalysis, and_assoc]
  · intro s
    cases hrec : s.record with
    | none => simp [RulesEngine.inAnalysisFull, hrec, and_assoc]
    | some rec => simp [RulesEngine.inAnalysisFull, hrec, and_assoc]
  · intro s
    cases hrec : s.record with
    | none => simp [RulesEngine.inAnalysisPending, hrec, and_assoc]
    | some rec => simp [RulesEngine.inAnalysisPending, hrec, and_assoc]
  · intro env rules now user db s hs hp
    exact mem_map_ite_neg _ _ hs hp
  · intro env ratesDb rules db s hs hp
    exact mem_map_ite_neg _ _ hs hp
  · intro env ratesDb rules db out s hrun hs hp
    unfold EntityTypeRulesEngine.runAnalysis at hrun
    obtain ⟨t, ht1, ht2⟩ := processAll_mem hrun s hs
    rw [hp] at ht1
    simp only [Bool.false_eq_true, if_false] at ht1
    injection ht1 with ht1
    rw [ht1]
    exact ht2

/-- Witness for C4: the classified, record-less income transaction is
outside the pending-only set and survives a pending-only run unchanged. -/
theorem C4_run_modes_witness :
    RulesEngine.inAnalysisPending 1 sClassified = false ∧
    sClassified ∈ RulesEngine.runAnalysisPendingOnly envNone [] 0 0 1 [sClassified] :=
  ⟨by decide,
   (C4_run_modes 1).2.2.2.2.2.2.1 envNone [] 0 0 [sClassified] sClassified
     (List.mem_singleton.mpr rfl) (by decide)⟩

/-- C5: Category classification is deterministic first-match over the
loaded (priority, name)-sorted rules: a selected rule is active, in scope
(global or owned by the declaration) and matching, and is minimal in the
(priority, then name) order among all active in-scope rules that
independently match; the loaded list contains only active rules, so
inactive rules are never evaluated at all. -/
theorem C5_priority_determinism (allRules : List TaxRule) (declId : ℕ) (env : Env)
    (t : Transaction) :
    (∀ s ∈ RulesEngine.loadRules allRules declId, s.isActive = true) ∧
    (∀ r, RulesEngine.selectRule allRules declId env t = some r →
      (r ∈ allRules ∧ r.isActive = true ∧
        (r.declaration = none ∨ r.declaration = some declId) ∧
        RulesEngine.checkRule env r.conditions t = true) ∧
      (∀ s ∈ allRules, s.isActive = true →
        (s.declaration = none ∨ s.declaration = some declId) →
        RulesEngine.checkRule env s.conditions t = true → RulesEngine.ruleLE r s)) := by
  constructor
  · intro s hs
    have hfil : s ∈ allRules.filter (RulesEngine.ruleVisible declId) :=
      ((List.perm_insertionSort _ _).mem_iff).mp hs
    exact (ruleVisible_iff.mp (List.mem_filter.mp hfil).2).1
  · intro r hfind
    have hfind2 : (RulesEngine.loadRules allRules declId).find?
        (fun s => RulesEngine.checkRule env s.conditions t) = some r := hfind
    have hsorted : (RulesEngine.loadRules allRules declId).Sorted RulesEngine.ruleLE :=
      List.sorted_insertionSort _ _
    have hrmem : r ∈ RulesEngine.loadRules allRules declId :=
      List.mem_of_find?_eq_some hfind2
    have hrfil : r ∈ allRules.filter (RulesEngine.ruleVisible declId) :=
      ((List.perm_insertionSort _ _).mem_iff).mp hrmem
    have hrvis := ruleVisible_iff.mp (List.mem_filter.mp hrfil).2
    have hrp : RulesEngine.checkRule env r.conditions t = true := by
      simpa using List.find?_some hfind2
    refine ⟨⟨(List.mem_filter.mp hrfil).1, hrvis.1, hrvis.2, hrp⟩, ?_⟩
    intro s hs hact hscope hmatch
    have hsfil : s ∈ allRules.filter (RulesEngine.ruleVisible declId) :=
      List.mem_filter.mpr ⟨hs, ruleVisible_iff.mpr ⟨hact, hscope⟩⟩
    have hsmem : s ∈ RulesEngine.loadRules allRules declId :=
      ((List.perm_insertionSort _ _).mem_iff).mpr hsfil
    exact find_first_minimal ruleLE_refl hsorted hfind2 s hsmem hmatch

/-- Witness for C5: both active rules match "Monthly Salary Payment"; the
selected rule is the priority-10 one and it precedes the priority-20 one
in the rule order, while the loaded rules all are active. -/
theorem C5_priority_determinism_witness :
    RulesEngine.selectRule c5Rules 1 envNone txSalary = some c5RuleA ∧
    RulesEngine.ruleLE c5RuleA c5RuleB := by
  refine ⟨by decide, ?_⟩
  exact ((C5_priority_determinism c5Rules 1 envNone txSalary).2 c5RuleA (by decide)).2
    c5RuleB (by decide) (by decide) (by decide) (by decide)

/-- Reduction of the Category evaluator on an amount range condition. -/
theorem catEval_amount_range (env : Env) (t : Transaction) (v : String) :
    RulesEngine.evaluateCondition env t ⟨some "amount", some "RANGE_AMOUNT", some v⟩ =
      (match (splitComma v).map pyTrim with
       | [minS, maxS] =>
          match parseDecimal minS, parseDecimal maxS with
          | some mn, some mx => decide (mn ≤ t.amount ∧ t.amount ≤ mx)
          | _, _ => false
       | _ => false) := rfl

/-- C6: the Condition Evaluator is total and fails closed: a field (or
relationship chain) resolving to missing/null, an unparseable numeric
literal, a malformed range, an invalid regular expression, and a missing
exchange rate each evaluate to no-match; the embedded evaluators return a
Bool on every input, mirroring the blanket exception handler of the
source. -/
theorem C6_fail_closed (env : Env) (cache : List ((ℤ × String) × ℚ))
    (ratesDb : List ExchangeRateRec) (t : Transaction) :
    (∀ f ty v, getDynamicValue t f = none →
      RulesEngine.evaluateCondition env t ⟨some f, ty, v⟩ = false) ∧
    (∀ v, parseDecimal v = none →
      RulesEngine.evaluateCondition env t ⟨some "amount", some "GREATER_THAN", some v⟩ = false) ∧
    (∀ v, ((splitComma v).map pyTrim).length ≠ 2 →
      RulesEngine.evaluateCondition env t ⟨some "amount", some "RANGE_AMOUNT", some v⟩ = false) ∧
    (∀ f v fv, f ≠ "" → getDynamicValue t f = some fv →
      env.regexSearch v (valueToString fv) = none →
      RulesEngine.evaluateCondition env t ⟨some f, some "REGEX_MATCH", some v⟩ = false) ∧
    (∀ v, t.currency ≠ "AMD" →
      rateLookup cache ratesDb t.transactionDate t.currency = none →
      EntityTypeRulesEngine.evaluateCondition env cache ratesDb t
        ⟨some "amount", some "GREATER_THAN", some v⟩ = false) := by
  refine ⟨?_, ?_, ?_, ?_, ?_⟩
  · intro f ty v h
    cases ty <;> cases v <;> simp [RulesEngine.evaluateCondition, h]
  · intro v h
    rw [catEval_amount_gt, h]
  · intro v h
    rw [catEval_amount_range]
    rcases hl : (splitComma v).map pyTrim with _ | ⟨a, _ | ⟨b, _ | ⟨c, rest⟩⟩⟩
    · rfl
    · rfl
    · exact absurd (by rw [hl]; rfl : ((splitComma v).map pyTrim).length = 2) h
    · rfl
  · intro f v fv hf hfv hre
    simp [RulesEngine.evaluateCondition, hf, hfv, hre]
  · intro v hc hr
    rw [fxEval_amount_gt, if_pos hc, hr]

/-- Witness for C6: each fail-closed case evaluated at a concrete
malformed input. -/
theorem C6_fail_closed_witness :
    RulesEngine.evaluateCondition envNone txSalary
      ⟨some "sender_account", some "CONTAINS_KEYWORD", some "x"⟩ = false ∧
    RulesEngine.evaluateCondition envNone txSalary
      ⟨some "amount", some "GREATER_THAN", some "abc"⟩ = false ∧
    RulesEngine.evaluateCondition envNone txSalary
      ⟨some "amount", some "RANGE_AMOUNT", some "1,2,3"⟩ = false ∧
    RulesEngine.evaluateCondition envNone txSalary
      ⟨some "description", some "REGEX_MATCH", some "sal.*"⟩ = false ∧
    EntityTypeRulesEngine.evaluateCondition envNone [] [] txUsd
      ⟨some "amount", some "GREATER_THAN", some "30000"⟩ = false :=
  ⟨(C6_fail_closed envNone [] [] txSalary).1 "sender_account" (some "CONTAINS_KEYWORD")
     (some "x") (by decide),
   (C6_fail_closed envNone [] [] txSalary).2.1 "abc" (by decide),
   (C6_fail_closed envNone [] [] txSalary).2.2.1 "1,2,3" (by decide),
   (C6_fail_closed envNone [] [] txSalary).2.2.2.1 "description" "sal.*"
     (.str "Monthly Salary Payment") (by decide) rfl rfl,
   (C6_fail_closed envNone [] [] txUsd).2.2.2.2 "30000" (by decide) (by decide)⟩

/-- C7: after a full Category run, an analyzed transaction failing all
rules with no existing queue entry gets exactly one new PENDING_REVIEW
entry assigned to the triggering user; an analyzed transaction with a
PENDING_REVIEW or NEW_RULE_PROPOSED entry that is now classified by a
rule (one carrying a declaration point) has the entry RESOLVED with a
non-null resolution timestamp; and a newly classified transaction with no
entry gets none created. -/
theorem C7_queue_reconciliation (env : Env) (rules : List TaxRule) (now : ℤ) (user : ℕ)
    (declId : ℕ) (db : List CatTx) (s : CatTx) (hs : s ∈ db)
    (hin : RulesEngine.inAnalysisFull declId s = true) :
    (rules.find? (fun r => RulesEngine.checkRule env r.conditions s.tx) = none →
      s.record = none →
      ∃ t, t ∈ RulesEngine.runAnalysis env rules now user declId db ∧ t.tx = s.tx ∧
        t.record = some ⟨"PENDING_REVIEW", some user, none⟩) ∧
    (∀ r rec p, rules.find? (fun r => RulesEngine.checkRule env r.conditions s.tx) = some r →
      r.declarationPoint = some p → s.record = some rec →
      (rec.status = "PENDING_REVIEW" ∨ rec.status = "NEW_RULE_PROPOSED") →
      ∃ t, t ∈ RulesEngine.runAnalysis env rules now user declId db ∧ t.tx = s.tx ∧
        t.declarationPoint = some p ∧ t.matchedRule = some r.id ∧
        t.record = some ⟨"RESOLVED", rec.assignedUser, some now⟩ ∧
        (some now : Option ℤ) ≠ none) ∧
    (∀ r, rules.find? (fun r => RulesEngine.checkRule env r.conditions s.tx) = some r →
      s.record = none →
      ∃ t, t ∈ RulesEngine.runAnalysis env rules now user declId db ∧ t.tx = s.tx ∧
        t.record = none) := by
  have hcleartx : (RulesEngine.clearTxFields s).tx = s.tx := by
    unfold RulesEngine.clearTxFields
    by_cases h : s.matchedRule ≠ none ∨ s.declarationPoint ≠ none
    · rw [if_pos h]
    · rw [if_neg h]
  refine ⟨?_, ?_, ?_⟩
  · intro hfind hrec
    have hstep : RulesEngine.fullStep env rules now user s =
        { RulesEngine.clearTxFields s with
            record := some ⟨"PENDING_REVIEW", some user, none⟩ } := by
      unfold RulesEngine.fullStep
      simp only [hfind, hrec]
    refine ⟨RulesEngine.fullStep env rules now user s, mem_map_ite_pos _ _ hs hin, ?_, ?_⟩
    · rw [hstep]
      exact hcleartx
    · rw [hstep]
  · intro r rec p hfind hp hrec hstatus
    have hne : r.declarationPoint ≠ none := by rw [hp]; exact Option.some_ne_none p
    have hstep : RulesEngine.fullStep env rules now user s =
        { s with
            matchedRule := some r.id
            declarationPoint := r.declarationPoint
            record := some { rec with
              status := "RESOLVED"
              resolutionDate := some now } } := by
      unfold RulesEngine.fullStep
      simp only [hfind, hrec, if_pos hne]
    refine ⟨RulesEngine.fullStep env rules now user s, mem_map_ite_pos _ _ hs hin,
      ?_, ?_, ?_, ?_, by simp⟩
    · rw [hstep]
    · rw [hstep]
      exact hp
    · rw [hstep]
    · rw [hstep]
  · intro r hfind hrec
    have hstep : RulesEngine.fullStep env rules now user s =
        { s with matchedRule := some r.id, declarationPoint := r.declarationPoint } := by
      unfold RulesEngine.fullStep
      simp only [hfind, hrec]
    refine ⟨RulesEngine.fullStep env rules now user s, mem_map_ite_pos _ _ hs hin, ?_, ?_⟩
    · rw [hstep]
    · rw [hstep]
      exact hrec

/-- Witness for C7: the three reconciliation outcomes on the concrete
scenario. -/
theorem C7_queue_reconciliation_witness :
    (∃ t, t ∈ RulesEngine.runAnalysis envNone c7Rules 99 8 1 c7Db ∧ t.tx = c7TxNoMatch.tx ∧
      t.record = some ⟨"PENDING_REVIEW", some 8, none⟩) ∧
    (∃ t, t ∈ RulesEngine.runAnalysis envNone c7Rules 99 8 1 c7Db ∧ t.tx = c7TxProposed.tx ∧
      t.declarationPoint = some 1 ∧ t.matchedRule = some c5RuleA.id ∧
      t.record = some ⟨"RESOLVED", some 4, some 99⟩ ∧ (some (99:ℤ) : Option ℤ) ≠ none) ∧
    (∃ t, t ∈ RulesEngine.runAnalysis envNone c7Rules 99 8 1 c7Db ∧ t.tx = c7TxFresh.tx ∧
      t.record = none) :=
  ⟨(C7_queue_reconciliation envNone c7Rules 99 8 1 c7Db c7TxNoMatch (by decide) (by decide)).1
     (by decide) rfl,
   (C7_queue_reconciliation envNone c7Rules 99 8 1 c7Db c7TxProposed (by decide) (by decide)).2.1
     c5RuleA ⟨"NEW_RULE_PROPOSED", some 4, none⟩ 1 (by decide) (by decide) rfl (Or.inr rfl),
   (C7_queue_reconciliation envNone c7Rules 99 8 1 c7Db c7TxFresh (by decide) (by decide)).2.2
     c5RuleA (by decide) rfl⟩

/-- C8: when no rule matches an analyzed transaction, the Entity-Type
driver writes nothing (the transaction's entity type is left exactly as
it was), while the Scope driver defaults a still-undetermined scope to
LOCAL as an explicit fallback (leaving any already-set scope alone), not
through any rule match. -/
theorem C8_unmatched_policy :
    (∀ env cache ratesDb rules (s : ETx),
      EntityTypeRulesEngine.matchRule env cache ratesDb s.tx rules = .ok none →
      EntityTypeRulesEngine.stepTx env cache ratesDb rules s = .ok s) ∧
    (∀ env ratesDb rules runAll declId db out (s : ETx),
      EntityTypeRulesEngine.runAnalysis env ratesDb rules runAll declId db = .ok out →
      s ∈ db →
      EntityTypeRulesEngine.matchRule env
        (buildCache ratesDb
          ((db.filter (EntityTypeRulesEngine.inAnalysis runAll declId)).map (fun x => x.tx)))
        ratesDb s.tx rules = .ok none →
      s ∈ out) ∧
    (∀ env cache ratesDb rules (s : STx),
      rules.find?
        (fun r => TransactionScopeRulesEngine.checkRule env cache ratesDb r.conditions s.tx) =
        none →
      TransactionScopeRulesEngine.stepTx env cache ratesDb rules s =
        (if s.transactionScope = "UNDETERMINED" then { s with transactionScope := "LOCAL" }
         else s)) ∧
    (∀ env ratesDb rules runAll declId db (s : STx),
      s ∈ db →
      TransactionScopeRulesEngine.inAnalysis runAll declId s = true →
      rules.find? (fun r => TransactionScopeRulesEngine.checkRule env
        (buildCache ratesDb
          ((db.filter (TransactionScopeRulesEngine.inAnalysis runAll declId)).map (fun x => x.tx)))
        ratesDb r.conditions s.tx) = none →
      s.transactionScope = "UNDETERMINED" →
      ∃ t, t ∈ TransactionScopeRulesEngine.runAnalysis env ratesDb rules runAll declId db ∧
        t.tx = s.tx ∧ t.transactionScope = "LOCAL") := by
  refine ⟨?_, ?_, ?_, ?_⟩
  · intro env cache ratesDb rules s hmatch
    unfold EntityTypeRulesEngine.stepTx
    simp only [hmatch]
  · intro env ratesDb rules runAll declId db out s hrun hs hmatch
    unfold EntityTypeRulesEngine.runAnalysis at hrun
    obtain ⟨t, ht1, ht2⟩ := processAll_mem hrun s hs
    by_cases hin : EntityTypeRulesEngine.inAnalysis runAll declId s = true
    · rw [if_pos hin] at ht1
      unfold EntityTypeRulesEngine.stepTx at ht1
      simp only [hmatch] at ht1
      injection ht1 with h
      exact h ▸ ht2
    · rw [if_neg hin] at ht1
      injection ht1 with h
      exact h ▸ ht2
  · intro env cache ratesDb rules s hfind
    unfold TransactionScopeRulesEngine.stepTx
    simp only [hfind]
  · intro env ratesDb rules runAll declId db s hs hin hfind hscope
    have hstep : TransactionScopeRulesEngine.stepTx env
        (buildCache ratesDb
          ((db.filter (TransactionScopeRulesEngine.inAnalysis runAll declId)).map (fun x => x.tx)))
        ratesDb rules s = { s with transactionScope := "LOCAL" } := by
      unfold TransactionScopeRulesEngine.stepTx
      simp only [hfind, if_pos hscope]
    have hmem := mem_map_ite_pos (TransactionScopeRulesEngine.inAnalysis runAll declId)
      (TransactionScopeRulesEngine.stepTx env
        (buildCache ratesDb
          ((db.filter (TransactionScopeRulesEngine.inAnalysis runAll declId)).map (fun x => x.tx)))
        ratesDb rules) hs hin
    exact ⟨_, hmem, by rw [hstep], by rw [hstep]⟩

/-- Witness for C8: with an empty rule set, the Entity-Type run leaves the
row unchanged and the Scope run defaults it to LOCAL. -/
theorem C8_unmatched_policy_witness :
    EntityTypeRulesEngine.stepTx envNone [] [] [] c8ETx = .ok c8ETx ∧
    c8ETx ∈ [c8ETx] ∧
    (∃ t, t ∈ TransactionScopeRulesEngine.runAnalysis envNone [] [] false 1 [c8STx] ∧
      t.tx = c8STx.tx ∧ t.transactionScope = "LOCAL") :=
  ⟨C8_unmatched_policy.1 envNone [] [] [] c8ETx rfl,
   C8_unmatched_policy.2.1 envNone [] [] false 1 [c8ETx] [c8ETx] c8ETx rfl
     (List.mem_singleton.mpr rfl) rfl,
   C8_unmatched_policy.2.2.2 envNone [] [] false 1 [c8STx] c8STx
     (List.mem_singleton.mpr rfl) (by decide) rfl rfl⟩

/-- C9: the full Category run on a transaction that fails all rules and
has a NEW_RULE_PROPOSED queue entry clears the transaction's category and
matched-rule references, but the claimed revert of the entry to
PENDING_REVIEW is NOT persisted: the source mutates the entry's status in
memory before the revert filter tests it, so the bulk status update never
includes the entry and the stored status stays NEW_RULE_PROPOSED. -/
theorem C9_revert_not_persisted :
    RulesEngine.runAnalysis envNone [] 0 8 1 [c9Tx] =
      [{ c9Tx with matchedRule := none, declarationPoint := none }] ∧
    (RulesEngine.fullStep envNone [] 0 8 c9Tx).record =
      some ⟨"NEW_RULE_PROPOSED", some 4, none⟩ := by
  decide

/-- C10: the negated operators are not logical negations of their positive
counterparts: when the condition's field — or, for the field-comparison
variant, the dynamically resolved comparison value — is missing/null,
both the positive and the negated forms evaluate to no-match. -/
theorem C10_negated_missing (env : Env) (t : Transaction) :
    (∀ f v, getDynamicValue t f = none →
      RulesEngine.evaluateCondition env t ⟨some f, some "CONTAINS_KEYWORD", some v⟩ = false ∧
      RulesEngine.evaluateCondition env t
        ⟨some f, some "DOES_NOT_CONTAIN_KEYWORD", some v⟩ = false) ∧
    (∀ f v fv, f ≠ "" → getDynamicValue t f = some fv → getDynamicValue t v = none →
      RulesEngine.evaluateCondition env t ⟨some f, some "CONTAINS_FIELD_VALUE", some v⟩ = false ∧
      RulesEngine.evaluateCondition env t
        ⟨some f, some "NOT_CONTAINS_FIELD_VALUE", some v⟩ = false) ∧
    RulesEngine.evaluateCondition envNone txSalary
        ⟨some "description", some "NOT_CONTAINS_FIELD_VALUE", some "sender_account"⟩ ≠
      !(RulesEngine.evaluateCondition envNone txSalary
        ⟨some "description", some "CONTAINS_FIELD_VALUE", some "sender_account"⟩) := by
  refine ⟨?_, ?_, by decide⟩
  · intro f v h
    exact ⟨by simp [RulesEngine.evaluateCondition, h], by simp [RulesEngine.evaluateCondition, h]⟩
  · intro f v fv hf hfv hvv
    exact ⟨by simp [RulesEngine.evaluateCondition, hf, hfv, hvv],
      by simp [RulesEngine.evaluateCondition, hf, hfv, hvv]⟩

/-- Witness for C10: both negated operators on concrete missing data. -/
theorem C10_negated_missing_witness :
    RulesEngine.evaluateCondition envNone txSalary
      ⟨some "sender_account", some "DOES_NOT_CONTAIN_KEYWORD", some "x"⟩ = false ∧
    RulesEngine.evaluateCondition envNone txSalary
      ⟨some "description", some "NOT_CONTAINS_FIELD_VALUE", some "sender_account"⟩ = false :=
  ⟨((C10_negated_missing envNone txSalary).1 "sender_account" "x" (by decide)).2,
   ((C10_negated_missing envNone txSalary).2.1 "description" "sender_account"
     (.str "Monthly Salary Payment") (by decide) rfl rfl).2⟩
